import Mathlib

/-!
Verification of the dimension/annotation metadata model of the holoviews
examples repository. The repository ships only notebook callers of the
library; the `Dimension` value object and the annotated-element clone
operations themselves are modelled from the specification document.
-/

/-- Modelled from the spec: the `Dimension` metadata value object
(the library class `holoviews.core.dimension.Dimension` is not included in
the repository sources; only notebook callers are). Attributes: `name`
(required lookup key), `label` (longer description, defaults to `name`),
and auxiliary metadata `range`, `soft_range`, `step`, `unit`, `values`. -/
structure Dimension where
  name : String
  label : String
  range : Option (Int × Int)
  soft_range : Option (Int × Int)
  step : Option Int
  unit : Option String
  values : Option (List Int)
deriving DecidableEq, Repr

/-- Modelled from the spec: a character usable inside a lookup keyword. -/
def isWordChar (c : Char) : Bool := c.isAlphanum || c == '_'

/-- Modelled from the spec: a dimension name is valid when it is non-empty
and usable as a lookup keyword (identifier-shaped: starts with a letter or
underscore, continues with letters, digits or underscores). -/
def validName (s : String) : Bool :=
  match s.toList with
  | [] => false
  | c :: cs => (c.isAlpha || c == '_') && cs.all isWordChar

/-- Modelled from the spec: a construction spec for a dimension — a bare
name string, a (name, label) pair, or explicit field values. -/
inductive DimensionSpec where
  | str (name : String)
  | pair (name label : String)
  | fields (d : Dimension)
deriving DecidableEq, Repr

/-- The name supplied by a construction spec. -/
def specName : DimensionSpec → String
  | DimensionSpec.str n => n
  | DimensionSpec.pair n _ => n
  | DimensionSpec.fields d => d.name

/-- Modelled from the spec: `Construct(spec)` — accepts a string
(interpreted as `name`, with `label` defaulting to `name`), a
(name, label) pair, or a full field set; returns a Dimension, failing
with a validation error when the name is empty or not usable as a
lookup keyword. -/
def Construct : DimensionSpec → Except String Dimension
  | DimensionSpec.str n =>
      if validName n then Except.ok ⟨n, n, none, none, none, none, none⟩
      else Except.error "invalid dimension name"
  | DimensionSpec.pair n l =>
      if validName n then Except.ok ⟨n, l, none, none, none, none, none⟩
      else Except.error "invalid dimension name"
  | DimensionSpec.fields d =>
      if validName d.name then Except.ok d
      else Except.error "invalid dimension name"

/-- Promote a list of construction specs to dimensions, propagating the
first validation error. -/
def constructAll : List DimensionSpec → Except String (List Dimension)
  | [] => Except.ok []
  | s :: rest =>
      match Construct s, constructAll rest with
      | Except.ok d, Except.ok ds => Except.ok (d :: ds)
      | Except.error m, _ => Except.error m
      | Except.ok _, Except.error m => Except.error m

/-- Modelled from the spec: an Annotated Data Element — an ordered
sequence of key dimensions, an ordered sequence of value dimensions, a
`group` string, a `label` string, and a reference to the underlying raw
data (opaque to the model, represented by a reference identifier). -/
structure Element where
  typeName : String
  kdims : List Dimension
  vdims : List Dimension
  group : String
  label : String
  data : Nat
deriving DecidableEq, Repr

/-- All dimensions of an element, key dimensions first. -/
def Element.allDims (e : Element) : List Dimension := e.kdims ++ e.vdims

/-- Look up a dimension of an element by its short name. -/
def Element.findDim (e : Element) (n : String) : Option Dimension :=
  e.allDims.find? (fun d => d.name == n)

/-- Modelled from the spec: the name-uniqueness invariant — `name` is
unique within the ordered sequence of dimensions attached to a single
data element. -/
def wellFormed (e : Element) : Prop :=
  (e.allDims.map Dimension.name).Nodup

/-- Modelled from the spec: element construction from raw data plus
optional dimension/group/label metadata. String and (name, label) specs
are promoted to Dimension values; omitted dimension specs fall back to
the element type defaults; the arity required by the element type is
enforced; `group` defaults to the type name and `label` to the empty
string. -/
def mkElement (typeName : String) (defK defV : List DimensionSpec)
    (reqK reqV : Nat) (data : Nat)
    (kdimSpecs vdimSpecs : Option (List DimensionSpec))
    (groupArg labelArg : Option String) : Except String Element :=
  match constructAll (kdimSpecs.getD defK), constructAll (vdimSpecs.getD defV) with
  | Except.ok kd, Except.ok vd =>
      if kd.length = reqK ∧ vd.length = reqV then
        Except.ok ⟨typeName, kd, vd, groupArg.getD typeName, labelArg.getD "", data⟩
      else Except.error "arity mismatch"
  | Except.error m, _ => Except.error m
  | Except.ok _, Except.error m => Except.error m

/-- Modelled from the spec: a curve-like element has exactly one key
dimension and one value dimension, with default names x and y. -/
def mkCurve (data : Nat) (kdimSpecs vdimSpecs : Option (List DimensionSpec))
    (groupArg labelArg : Option String) : Except String Element :=
  mkElement "Curve" [DimensionSpec.str "x"] [DimensionSpec.str "y"] 1 1
    data kdimSpecs vdimSpecs groupArg labelArg

/-- Rename a single dimension when its name matches, keeping every other
field. -/
def renameDim (old new : String) (d : Dimension) : Dimension :=
  if d.name = old then ⟨new, d.label, d.range, d.soft_range, d.step, d.unit, d.values⟩
  else d

/-- Modelled from the spec: Clone-with-renamed-dimension — returns a new
element whose dimension sequence has the dimension matching the old name
replaced by one with the new name (other fields preserved); fails with a
dimension-not-found error when the old name is not present. -/
def redimRename (e : Element) (old new : String) : Except String Element :=
  match e.findDim old with
  | some _ => Except.ok ⟨e.typeName, e.kdims.map (renameDim old new),
      e.vdims.map (renameDim old new), e.group, e.label, e.data⟩
  | none => Except.error "dimension not found"

/-- The updatable auxiliary fields of a dimension. -/
inductive FieldKind where
  | label
  | unit
  | range
  | step
  | values
deriving DecidableEq, Repr

/-- A field update carrying the new value for one updatable field. -/
inductive FieldUpdate where
  | label (v : String)
  | unit (v : Option String)
  | range (v : Option (Int × Int))
  | step (v : Option Int)
  | values (v : Option (List Int))
deriving DecidableEq, Repr

/-- The field a given update touches. -/
def kindOf : FieldUpdate → FieldKind
  | FieldUpdate.label _ => FieldKind.label
  | FieldUpdate.unit _ => FieldKind.unit
  | FieldUpdate.range _ => FieldKind.range
  | FieldUpdate.step _ => FieldKind.step
  | FieldUpdate.values _ => FieldKind.values

/-- Apply a field update to a dimension, replacing exactly that field. -/
def applyField (f : FieldUpdate) (d : Dimension) : Dimension :=
  match f with
  | FieldUpdate.label v => ⟨d.name, v, d.range, d.soft_range, d.step, d.unit, d.values⟩
  | FieldUpdate.unit v => ⟨d.name, d.label, d.range, d.soft_range, d.step, v, d.values⟩
  | FieldUpdate.range v => ⟨d.name, d.label, v, d.soft_range, d.step, d.unit, d.values⟩
  | FieldUpdate.step v => ⟨d.name, d.label, d.range, d.soft_range, v, d.unit, d.values⟩
  | FieldUpdate.values v => ⟨d.name, d.label, d.range, d.soft_range, d.step, d.unit, v⟩

/-- The update that sets a field to its current value in a dimension. -/
def currentUpdate (d : Dimension) : FieldKind → FieldUpdate
  | FieldKind.label => FieldUpdate.label d.label
  | FieldKind.unit => FieldUpdate.unit d.unit
  | FieldKind.range => FieldUpdate.range d.range
  | FieldKind.step => FieldUpdate.step d.step
  | FieldKind.values => FieldUpdate.values d.values

/-- Modelled from the spec: Clone-with-updated-field — returns a new
element with the named dimension's given field replaced; all other
dimensions, the group/label tags and the underlying data reference are
unchanged; fails with a dimension-not-found error when the name is not
present. -/
def redimField (e : Element) (n : String) (f : FieldUpdate) : Except String Element :=
  match e.findDim n with
  | some _ => Except.ok ⟨e.typeName,
      e.kdims.map (fun d => if d.name = n then applyField f d else d),
      e.vdims.map (fun d => if d.name = n then applyField f d else d),
      e.group, e.label, e.data⟩
  | none => Except.error "dimension not found"

/-- Modelled from the spec: dimension equality is decided by the core
identifying pair (name, label) alone; the auxiliary fields do not take
part. -/
def dimEq (d1 d2 : Dimension) : Bool :=
  d1.name == d2.name && d1.label == d2.label

/-- `d2` agrees with `d` on every field other than the one named by `k`
(the name and soft range are never touched by a field update). -/
def agreeExcept (k : FieldKind) (d d2 : Dimension) : Prop :=
  d2.name = d.name ∧ d2.soft_range = d.soft_range ∧
  (k ≠ FieldKind.label → d2.label = d.label) ∧
  (k ≠ FieldKind.unit → d2.unit = d.unit) ∧
  (k ≠ FieldKind.range → d2.range = d.range) ∧
  (k ≠ FieldKind.step → d2.step = d.step) ∧
  (k ≠ FieldKind.values → d2.values = d.values)

/-- The distance dimension of the notebook trajectory example. -/
def dimDistance : Dimension := ⟨"distance", "distance", none, none, none, none, none⟩

/-- The height dimension of the notebook trajectory example. -/
def dimHeight : Dimension := ⟨"height", "height", none, none, none, none, none⟩

/-- The notebook trajectory element: a curve with kdims [distance] and
vdims [height]. -/
def trajectory : Element := ⟨"Curve", [dimDistance], [dimHeight], "Curve", "", 0⟩

/-- The trajectory element after setting the unit of height to m. -/
def trajectoryUnit : Element :=
  ⟨"Curve", [dimDistance], [⟨"height", "height", none, none, none, some "m", none⟩],
    "Curve", "", 0⟩

/-- A curve built with all-default metadata. -/
def curveDefault : Element :=
  ⟨"Curve", [⟨"x", "x", none, none, none, none, none⟩],
    [⟨"y", "y", none, none, none, none, none⟩], "Curve", "", 0⟩

/-- A curve with explicit group and label tags, as in the notebook. -/
def curveTagged : Element :=
  ⟨"Curve", [⟨"x", "x", none, none, none, none, none⟩],
    [⟨"y", "y", none, none, none, none, none⟩], "Trajectory", "Shallow", 0⟩

theorem map_id_of_forall {α : Type} (l : List α) (f : α → α)
    (h : ∀ a ∈ l, f a = a) : l.map f = l := by
  induction l with
  | nil => rfl
  | cons a t ih =>
      simp only [List.map_cons]
      rw [h a (List.mem_cons_self a t), ih (fun x hx => h x (List.mem_cons_of_mem a hx))]

theorem setName_self (d : Dimension) (s : String) (h : d.name = s) :
    (⟨s, d.label, d.range, d.soft_range, d.step, d.unit, d.values⟩ : Dimension) = d := by
  cases d
  simp_all

/-- C1: for every valid construction spec — a bare name string, a
(name, label) pair, or explicit field values — reading back name and
label from the Dimension constructed from it yields exactly the values
supplied, or the documented defaults when omitted; in particular the
string distance yields name and label distance, and the
(height, Height above sea-level) pair yields that name and label. -/
theorem construct_roundtrip :
    (∀ n, validName n = true →
        Construct (DimensionSpec.str n) =
          Except.ok ⟨n, n, none, none, none, none, none⟩) ∧
    (∀ n l, validName n = true →
        Construct (DimensionSpec.pair n l) =
          Except.ok ⟨n, l, none, none, none, none, none⟩) ∧
    (∀ d, validName d.name = true →
        Construct (DimensionSpec.fields d) = Except.ok d) ∧
    Construct (DimensionSpec.str "distance") =
      Except.ok ⟨"distance", "distance", none, none, none, none, none⟩ ∧
    Construct (DimensionSpec.pair "height" "Height above sea-level") =
      Except.ok ⟨"height", "Height above sea-level", none, none, none, none, none⟩ := by
  refine ⟨?_, ?_, ?_, rfl, rfl⟩
  · intro n h
    simp [Construct, h]
  · intro n l h
    simp [Construct, h]
  · intro d h
    simp [Construct, h]

/-- C1 witness: the two concrete notebook constructions. -/
theorem construct_roundtrip_witness :
    Construct (DimensionSpec.str "distance") =
      Except.ok ⟨"distance", "distance", none, none, none, none, none⟩ ∧
    Construct (DimensionSpec.pair "height" "Height above sea-level") =
      Except.ok ⟨"height", "Height above sea-level", none, none, none, none, none⟩ :=
  ⟨construct_roundtrip.1 "distance" rfl,
   construct_roundtrip.2.1 "height" "Height above sea-level" rfl⟩

/-- C5: Construct fails with a validation error, reported synchronously
as the returned value, whenever the supplied name is empty or not usable
as a lookup keyword; for every usable name it returns a Dimension
carrying that name. -/
theorem construct_validation (s : DimensionSpec) :
    (specName s = "" → validName (specName s) = false) ∧
    (validName (specName s) = false →
        Construct s = Except.error "invalid dimension name") ∧
    (validName (specName s) = true →
        ∃ d, Construct s = Except.ok d ∧ d.name = specName s) := by
  refine ⟨?_, ?_, ?_⟩
  · intro h
    rw [h]
    rfl
  · intro h
    cases s with
    | str n => simp only [specName] at h; simp [Construct, h]
    | pair n l => simp only [specName] at h; simp [Construct, h]
    | fields d => simp only [specName] at h; simp [Construct, h]
  · intro h
    cases s with
    | str n =>
        simp only [specName] at h
        exact ⟨⟨n, n, none, none, none, none, none⟩, by simp [Construct, h], rfl⟩
    | pair n l =>
        simp only [specName] at h
        exact ⟨⟨n, l, none, none, none, none, none⟩, by simp [Construct, h], rfl⟩
    | fields d =>
        simp only [specName] at h
        exact ⟨d, by simp [Construct, h], rfl⟩

/-- C5 witness: the empty name is rejected and a plain name accepted. -/
theorem construct_validation_witness :
    Construct (DimensionSpec.str "") = Except.error "invalid dimension name" ∧
    (∃ d, Construct (DimensionSpec.str "x") = Except.ok d ∧
        d.name = specName (DimensionSpec.str "x")) :=
  ⟨(construct_validation (DimensionSpec.str "")).2.1 rfl,
   (construct_validation (DimensionSpec.str "x")).2.2 rfl⟩

/-- C7: dimension equality is decided by the core identifying pair
alone — two dimensions are equal under dimEq exactly when their names
and labels agree, whatever their auxiliary fields hold. -/
theorem dim_core_equality (d1 d2 : Dimension) :
    dimEq d1 d2 = true ↔ (d1.name = d2.name ∧ d1.label = d2.label) := by
  simp [dimEq]

/-- C7 witness: two dimensions differing in range, step and unit but
agreeing on the core pair are equal under dimEq. -/
theorem dim_core_equality_witness :
    dimEq ⟨"height", "Height", some (0, 9), none, none, some "m", none⟩
      ⟨"height", "Height", none, none, some 1, none, none⟩ = true :=
  (dim_core_equality ⟨"height", "Height", some (0, 9), none, none, some "m", none⟩
    ⟨"height", "Height", none, none, some 1, none, none⟩).2 ⟨rfl, rfl⟩

theorem renameDim_name_of_eq (old new : String) (d : Dimension) (h : d.name = old) :
    (renameDim old new d).name = new := by
  simp [renameDim, h]

theorem renameDim_of_ne (old new : String) (d : Dimension) (h : d.name ≠ old) :
    renameDim old new d = d := by
  simp [renameDim, h]

theorem redimRename_some (e : Element) (old new : String) (d : Dimension)
    (h : e.findDim old = some d) :
    redimRename e old new = Except.ok ⟨e.typeName, e.kdims.map (renameDim old new),
      e.vdims.map (renameDim old new), e.group, e.label, e.data⟩ := by
  simp [redimRename, h]

theorem redimRename_none (e : Element) (old new : String)
    (h : e.findDim old = none) :
    redimRename e old new = Except.error "dimension not found" := by
  simp [redimRename, h]

theorem redimField_some (e : Element) (n : String) (f : FieldUpdate) (d : Dimension)
    (h : e.findDim n = some d) :
    redimField e n f = Except.ok ⟨e.typeName,
      e.kdims.map (fun a => if a.name = n then applyField f a else a),
      e.vdims.map (fun a => if a.name = n then applyField f a else a),
      e.group, e.label, e.data⟩ := by
  simp [redimField, h]

theorem redimField_none (e : Element) (n : String) (f : FieldUpdate)
    (h : e.findDim n = none) :
    redimField e n f = Except.error "dimension not found" := by
  simp [redimField, h]

theorem rename_roundtrip (e : Element) (old new : String)
    (h1 : (e.findDim old).isSome = true) (h2 : e.findDim new = none) :
    ∃ e1, redimRename e old new = Except.ok e1 ∧
          redimRename e1 new old = Except.ok e := by
  obtain ⟨d0, hd0⟩ := Option.isSome_iff_exists.mp h1
  obtain ⟨d, hdmem, hdp⟩ := List.find?_isSome.mp h1
  have hdname : d.name = old := by simpa using hdp
  have hnone : ∀ x ∈ e.allDims, x.name ≠ new := by
    intro x hx
    have hx2 := List.find?_eq_none.mp h2 x hx
    simpa using hx2
  have hcomp : ∀ a ∈ e.allDims, renameDim new old (renameDim old new a) = a := by
    intro a ha
    by_cases hao : a.name = old
    · have hstep : renameDim old new a =
          ⟨new, a.label, a.range, a.soft_range, a.step, a.unit, a.values⟩ := by
        simp [renameDim, hao]
      rw [hstep]
      have hred : renameDim new old
          (⟨new, a.label, a.range, a.soft_range, a.step, a.unit, a.values⟩ : Dimension) =
          ⟨old, a.label, a.range, a.soft_range, a.step, a.unit, a.values⟩ := by
        simp [renameDim]
      rw [hred]
      exact setName_self a old hao
    · have hanew : a.name ≠ new := hnone a ha
      rw [renameDim_of_ne old new a hao, renameDim_of_ne new old a hanew]
  refine ⟨_, redimRename_some e old new d0 hd0, ?_⟩
  have hmem1 : renameDim old new d ∈
      (e.kdims.map (renameDim old new) ++ e.vdims.map (renameDim old new)) := by
    rcases List.mem_append.mp (by simpa [Element.allDims] using hdmem) with h | h
    · exact List.mem_append_left _ (List.mem_map_of_mem _ h)
    · exact List.mem_append_right _ (List.mem_map_of_mem _ h)
  have hfind2 : (((⟨e.typeName, e.kdims.map (renameDim old new),
      e.vdims.map (renameDim old new), e.group, e.label, e.data⟩ : Element)).findDim
        new).isSome = true := by
    rw [Element.findDim]
    refine List.find?_isSome.mpr ⟨renameDim old new d, ?_, ?_⟩
    · simpa [Element.allDims] using hmem1
    · simp [renameDim_name_of_eq old new d hdname]
  obtain ⟨d1, hd1⟩ := Option.isSome_iff_exists.mp hfind2
  rw [redimRename_some _ new old d1 hd1]
  have hk : (e.kdims.map (renameDim old new)).map (renameDim new old) = e.kdims := by
    rw [List.map_map]
    exact map_id_of_forall _ _ (fun a ha => hcomp a (by simp [Element.allDims, ha]))
  have hv : (e.vdims.map (renameDim old new)).map (renameDim new old) = e.vdims := by
    rw [List.map_map]
    exact map_id_of_forall _ _ (fun a ha => hcomp a (by simp [Element.allDims, ha]))
  simp [hk, hv]

/-- C2: renaming a dimension is reversible — for every element that has a
dimension named height and none named altitude, renaming height to
altitude and then altitude back to height yields the original element. -/
theorem rename_height_altitude_reversible (e : Element)
    (h1 : (e.findDim "height").isSome = true)
    (h2 : e.findDim "altitude" = none) :
    ∃ e1, redimRename e "height" "altitude" = Except.ok e1 ∧
          redimRename e1 "altitude" "height" = Except.ok e :=
  rename_roundtrip e "height" "altitude" h1 h2

/-- C2 witness: the notebook trajectory element round-trips. -/
theorem rename_height_altitude_reversible_witness :
    ∃ e1, redimRename trajectory "height" "altitude" = Except.ok e1 ∧
          redimRename e1 "altitude" "height" = Except.ok trajectory :=
  rename_height_altitude_reversible trajectory rfl rfl

/-- C3: no-op field updates are idempotent — for every well-formed
element with a dimension named n and every updatable field, updating that
field to its current value yields the element unchanged. -/
theorem noop_update (e : Element) (n : String) (d : Dimension) (k : FieldKind)
    (hw : wellFormed e) (hf : e.findDim n = some d) :
    redimField e n (currentUpdate d k) = Except.ok e := by
  have hmem : d ∈ e.allDims := List.mem_of_find?_eq_some hf
  have hname : d.name = n := by simpa using List.find?_some hf
  have key : ∀ a ∈ e.allDims, a.name = n → a = d := by
    intro a ha hn2
    exact List.inj_on_of_nodup_map hw ha hmem (by rw [hn2, hname])
  have happ : applyField (currentUpdate d k) d = d := by
    cases k <;> rfl
  rw [redimField_some e n (currentUpdate d k) d hf]
  have hid : ∀ a ∈ e.allDims,
      (if a.name = n then applyField (currentUpdate d k) a else a) = a := by
    intro a ha
    by_cases hcase : a.name = n
    · rw [if_pos hcase, key a ha hcase, happ]
    · rw [if_neg hcase]
  have hk : e.kdims.map
      (fun a => if a.name = n then applyField (currentUpdate d k) a else a) = e.kdims :=
    map_id_of_forall _ _ (fun a ha => hid a (by simp [Element.allDims, ha]))
  have hv : e.vdims.map
      (fun a => if a.name = n then applyField (currentUpdate d k) a else a) = e.vdims :=
    map_id_of_forall _ _ (fun a ha => hid a (by simp [Element.allDims, ha]))
  rw [hk, hv]

/-- C3 witness: updating the label of height to its current value leaves
the trajectory element unchanged. -/
theorem noop_update_witness :
    redimField trajectory "height" (currentUpdate dimHeight FieldKind.label) =
      Except.ok trajectory :=
  noop_update trajectory "height" dimHeight FieldKind.label
    (by unfold wellFormed; decide) rfl

/-- C4: both clone operations fail with a dimension-not-found error when
the referenced name is absent from the element; when it is present, the
rename succeeds, replacing the matching dimension with one carrying the
new name while preserving its other fields and leaving every other
dimension untouched. -/
theorem redim_missing_and_present (e : Element) (old new : String) (f : FieldUpdate) :
    (e.findDim old = none →
        redimRename e old new = Except.error "dimension not found" ∧
        redimField e old f = Except.error "dimension not found") ∧
    (∀ d, e.findDim old = some d →
        redimRename e old new = Except.ok ⟨e.typeName,
          e.kdims.map (renameDim old new), e.vdims.map (renameDim old new),
          e.group, e.label, e.data⟩ ∧
        (renameDim old new d).name = new ∧
        (renameDim old new d).label = d.label ∧
        (renameDim old new d).range = d.range ∧
        (renameDim old new d).soft_range = d.soft_range ∧
        (renameDim old new d).step = d.step ∧
        (renameDim old new d).unit = d.unit ∧
        (renameDim old new d).values = d.values ∧
        (∀ a ∈ e.allDims, a.name ≠ old → renameDim old new a = a)) := by
  constructor
  · intro h
    exact ⟨redimRename_none e old new h, redimField_none e old f h⟩
  · intro d hd
    have hdname : d.name = old := by simpa using List.find?_some hd
    refine ⟨redimRename_some e old new d hd, ?_, ?_, ?_, ?_, ?_, ?_, ?_, ?_⟩
    · simp [renameDim, hdname]
    · simp [renameDim, hdname]
    · simp [renameDim, hdname]
    · simp [renameDim, hdname]
    · simp [renameDim, hdname]
    · simp [renameDim, hdname]
    · simp [renameDim, hdname]
    · intro a _ hne
      exact renameDim_of_ne old new a hne

/-- C4 witness: a missing name errors on both operations and a present
name renames successfully on the trajectory element. -/
theorem redim_missing_and_present_witness :
    (redimRename trajectory "missing" "m2" = Except.error "dimension not found" ∧
     redimField trajectory "missing" (FieldUpdate.label "z") =
       Except.error "dimension not found") ∧
    redimRename trajectory "height" "altitude" =
      Except.ok ⟨trajectory.typeName, trajectory.kdims.map (renameDim "height" "altitude"),
        trajectory.vdims.map (renameDim "height" "altitude"),
        trajectory.group, trajectory.label, trajectory.data⟩ :=
  ⟨(redim_missing_and_present trajectory "missing" "m2" (FieldUpdate.label "z")).1 rfl,
   ((redim_missing_and_present trajectory "height" "altitude"
      (FieldUpdate.label "z")).2 dimHeight rfl).1⟩

/-- C6: a field update changes only the named field of the named
dimension — the produced element keeps the type, group and label tags and
the same underlying data reference, every dimension whose name differs is
untouched, and the updated dimension agrees with the original on every
field other than the one updated. -/
theorem redimField_frame (e : Element) (n : String) (f : FieldUpdate) (e2 : Element)
    (h : redimField e n f = Except.ok e2) :
    e2.typeName = e.typeName ∧ e2.group = e.group ∧ e2.label = e.label ∧
    e2.data = e.data ∧
    e2.kdims = e.kdims.map (fun a => if a.name = n then applyField f a else a) ∧
    e2.vdims = e.vdims.map (fun a => if a.name = n then applyField f a else a) ∧
    (∀ a : Dimension, a.name ≠ n → (if a.name = n then applyField f a else a) = a) ∧
    (∀ a : Dimension, agreeExcept (kindOf f) a (applyField f a)) := by
  cases hf : e.findDim n with
  | none =>
      rw [redimField_none e n f hf] at h
      exact Except.noConfusion h
  | some d =>
      rw [redimField_some e n f d hf] at h
      injection h with h2
      subst h2
      refine ⟨rfl, rfl, rfl, rfl, rfl, rfl, ?_, ?_⟩
      · intro a hne
        rw [if_neg hne]
      · intro a
        cases f <;> simp [agreeExcept, applyField, kindOf]

/-- C6 witness: setting the unit of height on the trajectory element
keeps the group, label and data reference. -/
theorem redimField_frame_witness :
    trajectoryUnit.group = trajectory.group ∧
    trajectoryUnit.label = trajectory.label ∧
    trajectoryUnit.data = trajectory.data := by
  have h := redimField_frame trajectory "height" (FieldUpdate.unit (some "m"))
    trajectoryUnit rfl
  exact ⟨h.2.1, h.2.2.1, h.2.2.2.1⟩

theorem mkElement_ok {tn : String} {dK dV : List DimensionSpec} {rK rV : Nat}
    {data : Nat} {ks vs : Option (List DimensionSpec)} {g l : Option String}
    {e : Element} (h : mkElement tn dK dV rK rV data ks vs g l = Except.ok e) :
    e.typeName = tn ∧ e.group = g.getD tn ∧ e.label = l.getD "" ∧
    e.data = data ∧ e.kdims.length = rK ∧ e.vdims.length = rV := by
  cases hk : constructAll (ks.getD dK) with
  | error m =>
      simp [mkElement, hk] at h
  | ok kd =>
      cases hv : constructAll (vs.getD dV) with
      | error m =>
          simp [mkElement, hk, hv] at h
      | ok vd =>
          simp only [mkElement, hk, hv] at h
          by_cases hlen : kd.length = rK ∧ vd.length = rV
          · rw [if_pos hlen] at h
            injection h with h2
            subst h2
            exact ⟨rfl, rfl, rfl, rfl, hlen.1, hlen.2⟩
          · rw [if_neg hlen] at h
            exact Except.noConfusion h

/-- C8: every element maintains the arity invariant of its type — a
curve-like construction only succeeds with exactly one key dimension and
one value dimension, both clone operations preserve the count and order
length of kdims and vdims, and the element declared with kdims distance
and vdims height exposes exactly one key and one value dimension with
those names. -/
theorem element_arity (data : Nat) :
    (∀ ks vs g l e, mkCurve data ks vs g l = Except.ok e →
        e.kdims.length = 1 ∧ e.vdims.length = 1) ∧
    (∀ (e e2 : Element) (old new : String), redimRename e old new = Except.ok e2 →
        e2.kdims.length = e.kdims.length ∧ e2.vdims.length = e.vdims.length) ∧
    (∀ (e e2 : Element) (n : String) (f : FieldUpdate),
        redimField e n f = Except.ok e2 →
        e2.kdims.length = e.kdims.length ∧ e2.vdims.length = e.vdims.length) ∧
    (∃ e, mkCurve data (some [DimensionSpec.str "distance"])
        (some [DimensionSpec.str "height"]) none none = Except.ok e ∧
        e.kdims.map Dimension.name = ["distance"] ∧
        e.vdims.map Dimension.name = ["height"] ∧
        e.kdims.length = 1 ∧ e.vdims.length = 1) := by
  refine ⟨?_, ?_, ?_, ?_⟩
  · intro ks vs g l e h
    have hh := mkElement_ok h
    exact ⟨hh.2.2.2.2.1, hh.2.2.2.2.2⟩
  · intro e e2 old new h
    cases hf : e.findDim old with
    | none =>
        rw [redimRename_none e old new hf] at h
        exact Except.noConfusion h
    | some d =>
        rw [redimRename_some e old new d hf] at h
        injection h with h2
        subst h2
        exact ⟨by simp, by simp⟩
  · intro e e2 n f h
    cases hf : e.findDim n with
    | none =>
        rw [redimField_none e n f hf] at h
        exact Except.noConfusion h
    | some d =>
        rw [redimField_some e n f d hf] at h
        injection h with h2
        subst h2
        exact ⟨by simp, by simp⟩
  · exact ⟨⟨"Curve", [dimDistance], [dimHeight], "Curve", "", data⟩,
      rfl, rfl, rfl, rfl, rfl⟩

/-- C8 witness: the trajectory-shaped construction has one key and one
value dimension. -/
theorem element_arity_witness :
    trajectory.kdims.length = 1 ∧ trajectory.vdims.length = 1 :=
  (element_arity 0).1 (some [DimensionSpec.str "distance"])
    (some [DimensionSpec.str "height"]) none none trajectory rfl

/-- C9: an element constructed without explicit group or label arguments
has group equal to its type name and label equal to the empty string;
when group and label are supplied, the element exposes exactly those
values. -/
theorem group_label_defaults (tn : String) (dK dV : List DimensionSpec)
    (rK rV : Nat) (data : Nat) (ks vs : Option (List DimensionSpec)) :
    (∀ e, mkElement tn dK dV rK rV data ks vs none none = Except.ok e →
        e.group = tn ∧ e.label = "") ∧
    (∀ g l e, mkElement tn dK dV rK rV data ks vs (some g) (some l) = Except.ok e →
        e.group = g ∧ e.label = l) := by
  constructor
  · intro e h
    have hh := mkElement_ok h
    exact ⟨hh.2.1, hh.2.2.1⟩
  · intro g l e h
    have hh := mkElement_ok h
    exact ⟨hh.2.1, hh.2.2.1⟩

/-- C9 witness: a default curve carries group Curve and empty label; a
curve tagged in the notebook style exposes the supplied tags. -/
theorem group_label_defaults_witness :
    (curveDefault.group = "Curve" ∧ curveDefault.label = "") ∧
    (curveTagged.group = "Trajectory" ∧ curveTagged.label = "Shallow") :=
  ⟨(group_label_defaults "Curve" [DimensionSpec.str "x"] [DimensionSpec.str "y"]
      1 1 0 none none).1 curveDefault rfl,
   (group_label_defaults "Curve" [DimensionSpec.str "x"] [DimensionSpec.str "y"]
      1 1 0 none none).2 "Trajectory" "Shallow" curveTagged rfl⟩

/-- C10: a curve-like element constructed from raw data with no
dimension specification gets default Dimension objects named x and y,
and string and (name, label) specs are promoted to full Dimension
values at construction, so the kdims and vdims sequences always hold
Dimension values. -/
theorem default_dims (data : Nat) :
    mkCurve data none none none none =
      Except.ok ⟨"Curve", [⟨"x", "x", none, none, none, none, none⟩],
        [⟨"y", "y", none, none, none, none, none⟩], "Curve", "", data⟩ ∧
    (∀ n, validName n = true →
        constructAll [DimensionSpec.str n] =
          Except.ok [⟨n, n, none, none, none, none, none⟩]) ∧
    (∀ n l, validName n = true →
        constructAll [DimensionSpec.pair n l] =
          Except.ok [⟨n, l, none, none, none, none, none⟩]) := by
  refine ⟨rfl, ?_, ?_⟩
  · intro n h
    simp [constructAll, Construct, h]
  · intro n l h
    simp [constructAll, Construct, h]

/-- C10 witness: the default construction at a concrete data reference
and the promotion of the string distance. -/
theorem default_dims_witness :
    mkCurve 7 none none none none =
      Except.ok ⟨"Curve", [⟨"x", "x", none, none, none, none, none⟩],
        [⟨"y", "y", none, none, none, none, none⟩], "Curve", "", 7⟩ ∧
    constructAll [DimensionSpec.str "distance"] =
      Except.ok [⟨"distance", "distance", none, none, none, none, none⟩] :=
  ⟨(default_dims 7).1, (default_dims 7).2.1 "distance" rfl⟩
